import Mathlib

/-!
Shallow embedding of the WrenchEX backend appointment-scheduling core:
`AppointmentService` (src/unnamed/part_013) and `AvailabilityService`
(src/src/services/availabilityService.ts).

Modelling conventions:
- Instants (JS `Date.getTime()`) are `Nat` milliseconds since the (local)
  epoch; all realistic inputs are nonnegative.  Day boundaries, day-of-week,
  and the `HH:MM` time strings follow the JS local-time calendar with the
  epoch day (1970-01-01) being a Thursday (day-of-week 4).
- The Prisma store is a `DB` record of row lists; `findUnique`/`findFirst`
  become `List.find?`, `count` becomes `List.countP`, and a `$transaction`
  is a single functional update (atomic by construction).
- Throwing functions return `Except String α`; an `Except.error` result
  leaves the caller's `DB` untouched (nothing is persisted on failure).
- Ids are allocated from a `nextId` counter, modelling the uniqueness of
  Prisma's generated cuids.
-/

namespace WrenchEx

/-- Prisma enum `AppointmentStatus`. -/
inductive AppointmentStatus
  | PENDING
  | CONFIRMED
  | IN_PROGRESS
  | COMPLETED
  | CANCELLED
deriving DecidableEq, Repr

/-- The string form of a status, as Prisma stores it and as it appears in
error messages. -/
def statusToString : AppointmentStatus → String
  | .PENDING => "PENDING"
  | .CONFIRMED => "CONFIRMED"
  | .IN_PROGRESS => "IN_PROGRESS"
  | .COMPLETED => "COMPLETED"
  | .CANCELLED => "CANCELLED"

/-- A status is non-terminal when it is one of PENDING, CONFIRMED,
IN_PROGRESS (the set used in every conflict query). -/
def nonTerminal : AppointmentStatus → Bool
  | .PENDING => true
  | .CONFIRMED => true
  | .IN_PROGRESS => true
  | .COMPLETED => false
  | .CANCELLED => false

structure Service where
  id : Nat
  sellerId : Nat
  isActive : Bool
  durationMinutes : Nat
  price : Nat
deriving DecidableEq, Repr

structure Seller where
  id : Nat
  isApproved : Bool
deriving DecidableEq, Repr

/-- One row of `SellerAvailability`: recurring window per (seller, day-of-week),
times as "HH:MM" strings.  The schema has a unique constraint on
(sellerId, dayOfWeek). -/
structure SellerAvailabilityRow where
  sellerId : Nat
  dayOfWeek : Nat
  startTime : String
  endTime : String
  isAvailable : Bool
deriving DecidableEq, Repr

structure SellerTimeOffRow where
  sellerId : Nat
  startDate : Nat
  endDate : Nat
  reason : Option String
  isActive : Bool
deriving DecidableEq, Repr

structure Appointment where
  id : Nat
  buyerId : Nat
  sellerId : Nat
  serviceId : Nat
  scheduledDate : Nat
  scheduledTimeStart : Nat
  scheduledTimeEnd : Nat
  totalAmount : Nat
  status : AppointmentStatus
deriving DecidableEq, Repr

structure StatusHistoryRow where
  appointmentId : Nat
  status : AppointmentStatus
  notes : Option String
  changedBy : Nat
deriving DecidableEq, Repr

structure DB where
  services : List Service
  sellers : List Seller
  sellerAvailability : List SellerAvailabilityRow
  sellerTimeOff : List SellerTimeOffRow
  appointments : List Appointment
  statusHistory : List StatusHistoryRow
  nextId : Nat
deriving DecidableEq, Repr

/-! ### Time helpers (JS `Date` at millisecond resolution, local time) -/

def msPerMinute : Nat := 60000
def msPerHour : Nat := 3600000
def msPerDay : Nat := 86400000

/-- `d.setHours(0,0,0,0)`: midnight of the day containing `t`. -/
def startOfDay (t : Nat) : Nat := t / msPerDay * msPerDay

/-- `d.getDay()`: 0 = Sunday .. 6 = Saturday; the epoch day is a Thursday. -/
def dayOfWeek (t : Nat) : Nat := (t / msPerDay + 4) % 7

/-- `d.getMinutes()`: the minutes-of-hour component. -/
def getMinutes (t : Nat) : Nat := t / msPerMinute % 60

/-- `d.setHours(h, m, 0, 0)` applied to a date on the same day as `t`. -/
def setHours (t h m : Nat) : Nat := startOfDay t + h * msPerHour + m * msPerMinute

/-- `d.setMinutes(m)`: replaces the minutes component, keeping the hour,
seconds and milliseconds (minutes ≥ 60 roll over into the hour). -/
def setMinutes (t m : Nat) : Nat := t - getMinutes t * msPerMinute + m * msPerMinute

/-- `a.toDateString() === b.toDateString()`: same calendar day. -/
def sameDay (t u : Nat) : Bool := t / msPerDay == u / msPerDay

def digitChar (n : Nat) : Char := Char.ofNat (48 + n)

/-- Two-digit zero-padded decimal rendering of `n < 100`. -/
def pad2chars (n : Nat) : List Char := [digitChar (n / 10), digitChar (n % 10)]

/-- `d.toTimeString().slice(0, 5)`: the "HH:MM" local time string. -/
def toTimeString (t : Nat) : String :=
  ⟨pad2chars (t / msPerHour % 24) ++ ':' :: pad2chars (getMinutes t)⟩

/-- `c` as a decimal digit, when it is one. -/
def charDigit? (c : Char) : Option Nat :=
  if 48 ≤ c.toNat ∧ c.toNat ≤ 57 then some (c.toNat - 48) else none

/-- JS `Number(s)` on a nonnegative-integer string: `none` models NaN. -/
def jsNumber? (l : List Char) : Option Nat :=
  l.foldl (fun acc c =>
    match acc, charDigit? c with
    | some n, some d => some (n * 10 + d)
    | _, _ => none) (some 0)

/-- JS `s.split(':')` on the character list. -/
def splitOnColon (l : List Char) : List (List Char) :=
  match l with
  | [] => [[]]
  | c :: cs =>
    match splitOnColon cs with
    | [] => [[c]]
    | r :: rs => if c = ':' then [] :: r :: rs else (c :: r) :: rs

/-- `s.split(':').map(Number)` destructured as `[hours, minutes]`. -/
def parseHHMM (s : String) : Nat × Nat :=
  match (splitOnColon s.data).map jsNumber? with
  | [some h, some m] => (h, m)
  | _ => (0, 0)

/-- JS `<` on strings: lexicographic comparison of the code-unit sequences. -/
def charListLt : List Char → List Char → Bool
  | _, [] => false
  | [], _ :: _ => true
  | a :: as, b :: bs =>
    if a.toNat < b.toNat then true
    else if b.toNat < a.toNat then false
    else charListLt as bs

/-- JS string comparison `a < b` (total order on strings, no NaN cases). -/
def jsLtString (a b : String) : Bool := charListLt a.data b.data

/-! ### Conflict queries

`AppointmentService.checkTimeSlotAvailability` and
`AvailabilityService.isSellerAvailable` issue the same Prisma `count` query:
status in {PENDING, CONFIRMED, IN_PROGRESS} and a three-clause OR over the
stored window [scheduledTimeStart, scheduledTimeEnd) against the candidate
window [startTime, endTime). -/

/-- The three-clause Prisma OR, literally:
`(scheduledTimeStart ≤ startTime ∧ scheduledTimeEnd > startTime) ∨
 (scheduledTimeStart < endTime ∧ scheduledTimeEnd ≥ endTime) ∨
 (scheduledTimeStart ≥ startTime ∧ scheduledTimeEnd ≤ endTime)`. -/
def overlapClause (aStart aEnd startTime endTime : Nat) : Bool :=
  (decide (aStart ≤ startTime) && decide (aEnd > startTime)) ||
  (decide (aStart < endTime) && decide (aEnd ≥ endTime)) ||
  (decide (aStart ≥ startTime) && decide (aEnd ≤ endTime))

/-- One appointment row matches the overlapping-appointments `where` filter. -/
def conflictsWith (a : Appointment) (sellerId startTime endTime : Nat) : Bool :=
  a.sellerId == sellerId && nonTerminal a.status &&
    overlapClause a.scheduledTimeStart a.scheduledTimeEnd startTime endTime

/-- `AppointmentService.checkTimeSlotAvailability`: the count of overlapping
non-terminal appointments is zero. -/
def checkTimeSlotAvailability (db : DB) (sellerId startTime endTime : Nat) : Bool :=
  db.appointments.countP (fun a => conflictsWith a sellerId startTime endTime) == 0

/-! ### AppointmentService.createAppointment -/

structure AppointmentCreateData where
  serviceId : Nat
  scheduledDate : Nat
  scheduledTimeStart : Nat
  scheduledTimeEnd : Nat
deriving DecidableEq, Repr

/-- `AppointmentService.createAppointment`.  The seller-availability day
check present in the source is disabled there ("Temporarily disable
availability check to allow all bookings"): it only logs and never throws,
so it has no effect on the result and is omitted.  The `$transaction`
persisting the appointment plus its initial status-history row is the
single functional update below.  The seller lookup models the `include`
of the seller relation; foreign-key integrity makes it total in practice. -/
def createAppointment (db : DB) (buyerId : Nat) (d : AppointmentCreateData) :
    Except String (DB × Appointment) :=
  match db.services.find? (fun s => s.id == d.serviceId && s.isActive) with
  | none => .error "Service not found or is inactive"
  | some service =>
    match db.sellers.find? (fun s => s.id == service.sellerId) with
    | none => .error "Seller record missing"
    | some seller =>
      if !seller.isApproved then
        .error "This seller is not approved to take appointments"
      else
        let startTime := d.scheduledTimeStart
        let endTime := d.scheduledTimeEnd
        let expectedEndTime := startTime + service.durationMinutes * msPerMinute
        if endTime ≠ expectedEndTime then
          .error ("Appointment duration must be " ++ toString service.durationMinutes ++
            " minutes for this service")
        else if !checkTimeSlotAvailability db service.sellerId startTime endTime then
          .error "The selected time slot is not available"
        else
          let appt : Appointment :=
            { id := db.nextId
              buyerId := buyerId
              sellerId := service.sellerId
              serviceId := d.serviceId
              scheduledDate := d.scheduledDate
              scheduledTimeStart := startTime
              scheduledTimeEnd := endTime
              totalAmount := service.price
              status := .PENDING }
          .ok ({ db with
                  nextId := db.nextId + 1
                  appointments := db.appointments ++ [appt]
                  statusHistory := db.statusHistory ++
                    [{ appointmentId := appt.id
                       status := .PENDING
                       notes := some "Appointment created"
                       changedBy := buyerId }] }, appt)

/-! ### AppointmentService.updateAppointmentStatus -/

/-- The `validTransitions` table, literally from the source. -/
def validTransitions : AppointmentStatus → List AppointmentStatus
  | .PENDING => [.CONFIRMED, .CANCELLED]
  | .CONFIRMED => [.IN_PROGRESS, .CANCELLED]
  | .IN_PROGRESS => [.COMPLETED, .CANCELLED]
  | .COMPLETED => []
  | .CANCELLED => []

/-- `AppointmentService.updateAppointmentStatus`: status update plus one
appended status-history row in a single `$transaction`. -/
def updateAppointmentStatus (db : DB) (appointmentId : Nat)
    (newStatus : AppointmentStatus) (changedBy : Nat) (notes : Option String) :
    Except String DB :=
  match db.appointments.find? (fun a => a.id == appointmentId) with
  | none => .error "Appointment not found"
  | some appointment =>
    if !(validTransitions appointment.status).contains newStatus then
      .error ("Cannot change status from " ++ statusToString appointment.status ++
        " to " ++ statusToString newStatus)
    else
      .ok { db with
              appointments := db.appointments.map (fun a =>
                if a.id == appointmentId then { a with status := newStatus } else a)
              statusHistory := db.statusHistory ++
                [{ appointmentId := appointmentId
                   status := newStatus
                   notes := notes
                   changedBy := changedBy }] }

/-- `AppointmentService.cancelAppointment`: sugar over the status update. -/
def cancelAppointment (db : DB) (appointmentId cancelledBy : Nat)
    (reason : Option String) : Except String DB :=
  updateAppointmentStatus db appointmentId .CANCELLED cancelledBy
    (some (match reason with
      | some r => "Cancelled: " ++ r
      | none => "Appointment cancelled"))

/-! ### AvailabilityService.addTimeOff -/

/-- `AvailabilityService.addTimeOff`: refuses a range that three-clause
overlaps an existing active time-off (the OR block is the same three-clause
pattern as the appointment conflict query, here over date ranges), then
refuses if any PENDING or CONFIRMED appointment has `scheduledDate` within
`[startDate, endDate]`, otherwise inserts an active row. -/
def addTimeOff (db : DB) (sellerId startDate endDate : Nat)
    (reason : Option String) : Except String (DB × SellerTimeOffRow) :=
  let overlapping := db.sellerTimeOff.find? (fun t =>
    t.sellerId == sellerId && t.isActive &&
      overlapClause t.startDate t.endDate startDate endDate)
  if overlapping.isSome then
    .error "Time off period overlaps with existing time off"
  else
    let appointmentsDuringTimeOff := db.appointments.countP (fun a =>
      a.sellerId == sellerId &&
      (a.status == .PENDING || a.status == .CONFIRMED) &&
      (decide (startDate ≤ a.scheduledDate) && decide (a.scheduledDate ≤ endDate)))
    if appointmentsDuringTimeOff > 0 then
      .error "Cannot add time off when there are pending or confirmed appointments during this period"
    else
      let row : SellerTimeOffRow :=
        { sellerId := sellerId
          startDate := startDate
          endDate := endDate
          reason := reason
          isActive := true }
      .ok ({ db with sellerTimeOff := db.sellerTimeOff ++ [row] }, row)

/-! ### AvailabilityService.isSellerAvailable -/

structure AvailabilityOutcome where
  available : Bool
  reason : Option String
deriving DecidableEq, Repr

/-- Prisma `findUnique` on the (sellerId, dayOfWeek) unique key. -/
def findAvailabilityRow (db : DB) (sellerId dow : Nat) : Option SellerAvailabilityRow :=
  db.sellerAvailability.find? (fun r => r.sellerId == sellerId && r.dayOfWeek == dow)

/-- `AvailabilityService.isSellerAvailable`: day row present and available,
start time string inside the window, no active time off covering the date,
and no overlapping non-terminal appointment. -/
def isSellerAvailable (db : DB) (sellerId date startTime endTime : Nat) :
    AvailabilityOutcome :=
  let dow := dayOfWeek date
  let timeString := toTimeString startTime
  match findAvailabilityRow db sellerId dow with
  | none => { available := false, reason := some "Seller not available on this day" }
  | some availability =>
    if !availability.isAvailable then
      { available := false, reason := some "Seller not available on this day" }
    else if jsLtString timeString availability.startTime ||
        !jsLtString timeString availability.endTime then
      { available := false, reason := some "Time is outside sellers available hours" }
    else
      match db.sellerTimeOff.find? (fun t =>
        t.sellerId == sellerId && t.isActive &&
          decide (t.startDate ≤ date) && decide (date ≤ t.endDate)) with
      | some _ => { available := false, reason := some "Seller is on time off during this period" }
      | none =>
        if db.appointments.countP (fun a => conflictsWith a sellerId startTime endTime) > 0 then
          { available := false, reason := some "Time slot is already booked" }
        else
          { available := true, reason := none }

/-! ### AvailabilityService.getNextAvailableSlot -/

structure SlotAnswer where
  date : Nat
  startTime : Nat
  endTime : Nat
deriving DecidableEq, Repr

/-- The inner `while (slotStart < dayEnd)` loop: return the probed candidate
when it fits the window and the seller is available, otherwise advance by a
constant 30-minute stride.  `fuel` bounds the iteration count; callers pass
enough fuel for the loop to run to completion, so exhaustion is unreachable. -/
def findSlotInDayGo (db : DB) (sellerId durationMinutes currentDate dayEnd : Nat) :
    Nat → Nat → Option SlotAnswer
  | 0, _ => none
  | fuel + 1, slotStart =>
    if slotStart < dayEnd then
      let slotEnd := slotStart + durationMinutes * msPerMinute
      if slotEnd ≤ dayEnd &&
          (isSellerAvailable db sellerId currentDate slotStart slotEnd).available then
        some { date := currentDate, startTime := slotStart, endTime := slotEnd }
      else
        findSlotInDayGo db sellerId durationMinutes currentDate dayEnd fuel
          (slotStart + 30 * msPerMinute)
    else none

/-- `Math.ceil(m / 30) * 30` applied to the minutes component, keeping the
seconds and milliseconds of `t` (JS `setMinutes` after `Math.ceil`). -/
def roundUpProbeStart (t : Nat) : Nat :=
  setMinutes t ((getMinutes t + 29) / 30 * 30)

/-- One iteration body of the outer day loop: resolve the recurring window
for the day, skip it on missing/unavailable rows or covering time-off,
otherwise probe the window (starting no earlier than `now` when the day is
today, with the probe start minutes rounded up to a multiple of 30). -/
def probeDay (db : DB) (sellerId durationMinutes now currentDate : Nat) :
    Option SlotAnswer :=
  match findAvailabilityRow db sellerId (dayOfWeek currentDate) with
  | none => none
  | some availability =>
    if availability.isAvailable then
      match db.sellerTimeOff.find? (fun t =>
        t.sellerId == sellerId && t.isActive &&
          decide (t.startDate ≤ currentDate) && decide (currentDate ≤ t.endDate)) with
      | some _ => none
      | none =>
        let sh := (parseHHMM availability.startTime).1
        let sm := (parseHHMM availability.startTime).2
        let eh := (parseHHMM availability.endTime).1
        let em := (parseHHMM availability.endTime).2
        let windowStart := setHours currentDate sh sm
        let dayEnd := setHours currentDate eh em
        let slotStart :=
          if sameDay currentDate now && windowStart < now then roundUpProbeStart now
          else windowStart
        findSlotInDayGo db sellerId durationMinutes currentDate dayEnd
          ((dayEnd - slotStart) / (30 * msPerMinute) + 1) slotStart
    else none

/-- The outer `while (currentDate <= endDate)` loop over calendar days. -/
def getNextAvailableSlotGo (db : DB) (sellerId durationMinutes endDate now : Nat) :
    Nat → Nat → Option SlotAnswer
  | 0, _ => none
  | fuel + 1, currentDate =>
    if currentDate ≤ endDate then
      match probeDay db sellerId durationMinutes now currentDate with
      | some slot => some slot
      | none =>
        getNextAvailableSlotGo db sellerId durationMinutes endDate now fuel
          (currentDate + msPerDay)
    else none

/-- `AvailabilityService.getNextAvailableSlot`.  `now` is the wall clock
(`new Date()` in the source); `fromDate` is the search origin. -/
def getNextAvailableSlot (db : DB) (serviceId fromDate now daysAhead : Nat) :
    Except String (Option SlotAnswer) :=
  match db.services.find? (fun s => s.id == serviceId) with
  | none => .error "Service not found"
  | some service =>
    let endDate := fromDate + daysAhead * msPerDay
    let currentDate := startOfDay fromDate
    .ok (getNextAvailableSlotGo db service.sellerId service.durationMinutes endDate now
      (daysAhead + 3) currentDate)

/-! ### AppointmentService.getAvailableTimeSlots -/

structure TimeSlotInfo where
  startTime : String
  endTime : String
  isAvailable : Bool
deriving DecidableEq, Repr

/-- `AppointmentService.getSellerAvailabilityForDay`: the rows for
(seller, day-of-week) marked available.  The (sellerId, dayOfWeek) unique
constraint means at most one row matches, so the `orderBy` is immaterial. -/
def getSellerAvailabilityForDay (db : DB) (sellerId dow : Nat) :
    List SellerAvailabilityRow :=
  db.sellerAvailability.filter (fun r =>
    r.sellerId == sellerId && r.dayOfWeek == dow && r.isAvailable)

/-- The `while (currentTime < endTime)` grid loop of `getAvailableTimeSlots`:
push every probe window that fits, flagged with its conflict result, and
advance by `intervalMinutes`. -/
def getAvailableTimeSlotsGo (db : DB) (sellerId durationMinutes intervalMinutes endTime : Nat) :
    Nat → Nat → List TimeSlotInfo
  | 0, _ => []
  | fuel + 1, currentTime =>
    if currentTime < endTime then
      let slotStart := currentTime
      let slotEnd := currentTime + durationMinutes * msPerMinute
      let rest := getAvailableTimeSlotsGo db sellerId durationMinutes intervalMinutes endTime
        fuel (currentTime + intervalMinutes * msPerMinute)
      if slotEnd ≤ endTime then
        { startTime := toTimeString slotStart
          endTime := toTimeString slotEnd
          isAvailable := checkTimeSlotAvailability db sellerId slotStart slotEnd } :: rest
      else rest
    else []

/-- `AppointmentService.getAvailableTimeSlots`. -/
def getAvailableTimeSlots (db : DB) (serviceId date intervalMinutes : Nat) :
    Except String (List TimeSlotInfo) :=
  match db.services.find? (fun s => s.id == serviceId) with
  | none => .error "Service not found"
  | some service =>
    let availability := getSellerAvailabilityForDay db service.sellerId (dayOfWeek date)
    if availability.isEmpty then .ok []
    else
      .ok (availability.foldl (fun slots row =>
        let sh := (parseHHMM row.startTime).1
        let sm := (parseHHMM row.startTime).2
        let eh := (parseHHMM row.endTime).1
        let em := (parseHHMM row.endTime).2
        let currentTime := setHours date sh sm
        let endT := setHours date eh em
        slots ++ getAvailableTimeSlotsGo db service.sellerId service.durationMinutes
          intervalMinutes endT
          ((endT - currentTime) / (max 1 intervalMinutes * msPerMinute) + 1) currentTime) [])

/-! ## Reachability

States reachable from an empty booking ledger through the two mutating
ledger operations, `createAppointment` and `updateAppointmentStatus`. -/

inductive Reachable : DB → Prop
  | init (db : DB) : db.appointments = [] → db.statusHistory = [] → Reachable db
  | create (db db' : DB) (buyerId : Nat) (d : AppointmentCreateData) (a : Appointment) :
      Reachable db → createAppointment db buyerId d = .ok (db', a) → Reachable db'
  | update (db db' : DB) (appointmentId : Nat) (newStatus : AppointmentStatus)
      (changedBy : Nat) (notes : Option String) :
      Reachable db →
      updateAppointmentStatus db appointmentId newStatus changedBy notes = .ok db' →
      Reachable db'

/-! ## Spec-side notions -/

/-- The two half-open windows `[s1,e1)` and `[s2,e2)` genuinely intersect
as sets (this is what "overlap" means for `[start,end)` windows). -/
def overlapWindows (s1 e1 s2 e2 : Nat) : Prop := max s1 s2 < min e1 e2

/-- The transition table exactly as the spec enumerates it:
Pending→{Confirmed,Cancelled}, Confirmed→{InProgress,Cancelled},
InProgress→{Completed,Cancelled}. -/
def specTransitionPairs : List (AppointmentStatus × AppointmentStatus) :=
  [(.PENDING, .CONFIRMED), (.PENDING, .CANCELLED),
   (.CONFIRMED, .IN_PROGRESS), (.CONFIRMED, .CANCELLED),
   (.IN_PROGRESS, .COMPLETED), (.IN_PROGRESS, .CANCELLED)]

/-- The spec's no-double-booking invariant: no two distinct appointments of
one seller with intersecting `[start,end)` windows are both non-terminal. -/
def NoDoubleBooking (db : DB) : Prop :=
  db.appointments.Pairwise (fun a1 a2 =>
    a1.sellerId = a2.sellerId → nonTerminal a1.status = true →
      nonTerminal a2.status = true →
      ¬ overlapWindows a1.scheduledTimeStart a1.scheduledTimeEnd
          a2.scheduledTimeStart a2.scheduledTimeEnd)

/-! ## Helper lemmas -/

/-- For non-empty intervals the three-clause Prisma OR is the standard
half-open overlap test. -/
theorem overlapClause_iff (a b c d : Nat) (hab : a < b) (hcd : c < d) :
    overlapClause c d a b = true ↔ (a < d ∧ c < b) := by
  simp only [overlapClause, Bool.or_eq_true, Bool.and_eq_true, decide_eq_true_eq]
  omega

/-- A genuine window intersection always trips the three-clause OR
(no non-emptiness hypotheses needed). -/
theorem overlapWindows_imp_clause (s1 e1 s2 e2 : Nat)
    (h : overlapWindows s1 e1 s2 e2) : overlapClause s1 e1 s2 e2 = true := by
  simp only [overlapWindows] at h
  simp only [overlapClause, Bool.or_eq_true, Bool.and_eq_true, decide_eq_true_eq]
  omega

/-- Terminal appointments never match the conflict filter. -/
theorem conflictsWith_terminal (x : Appointment) (sellerId s e : Nat)
    (hx : nonTerminal x.status = false) : conflictsWith x sellerId s e = false := by
  simp [conflictsWith, hx]

/-- An available slot check means no stored appointment matches the filter. -/
theorem checkTimeSlotAvailability_eq_true (db : DB) (sellerId s e : Nat) :
    checkTimeSlotAvailability db sellerId s e = true ↔
      ∀ x ∈ db.appointments, conflictsWith x sellerId s e = false := by
  simp only [checkTimeSlotAvailability, beq_iff_eq, List.countP_eq_zero,
    Bool.not_eq_true]

/-- The source's `validTransitions` table realises exactly the spec's list
of permitted (current, target) pairs. -/
theorem validTransitions_eq_spec (s t : AppointmentStatus) :
    (validTransitions s).contains t = true ↔ (s, t) ∈ specTransitionPairs := by
  cases s <;> cases t <;> decide

/-- A permitted transition into a non-terminal status starts from a
non-terminal status. -/
theorem validTransitions_nonTerminal (s t : AppointmentStatus)
    (h : (validTransitions s).contains t = true) (ht : nonTerminal t = true) :
    nonTerminal s = true := by
  cases s <;> cases t <;> simp_all [validTransitions, nonTerminal]

/-! ## C3 -/

/-- C3: the conflict check decides overlap exactly by the half-open rule:
for non-empty candidate `[a,b)` and stored `[c,d)` the three-clause
disjunction equals `a < d ∧ c < b`; only Pending/Confirmed/InProgress rows
are consulted (terminal rows never match the filter); and
`checkTimeSlotAvailability` succeeds exactly when no same-seller
non-terminal appointment overlaps the candidate in that sense. -/
theorem C3_overlap_rule :
    (∀ a b c d : Nat, a < b → c < d →
      (overlapClause c d a b = true ↔ (a < d ∧ c < b))) ∧
    (∀ (x : Appointment) (sellerId s e : Nat), nonTerminal x.status = false →
      conflictsWith x sellerId s e = false) ∧
    (∀ (db : DB) (sellerId s e : Nat), s < e →
      (∀ x ∈ db.appointments, x.scheduledTimeStart < x.scheduledTimeEnd) →
      (checkTimeSlotAvailability db sellerId s e = true ↔
        ∀ x ∈ db.appointments, x.sellerId = sellerId →
          nonTerminal x.status = true →
          ¬(s < x.scheduledTimeEnd ∧ x.scheduledTimeStart < e))) := by
  refine ⟨overlapClause_iff, conflictsWith_terminal, ?_⟩
  intro db sellerId s e hse hne
  rw [checkTimeSlotAvailability_eq_true]
  constructor
  · intro h x hx hsell hnt hov
    have hc := h x hx
    rw [conflictsWith, hsell, hnt] at hc
    simp only [beq_self_eq_true, Bool.true_and] at hc
    have hcl := (overlapClause_iff s e x.scheduledTimeStart x.scheduledTimeEnd hse
      (hne x hx)).mpr hov
    rw [hcl] at hc
    exact absurd hc (by simp)
  · intro h x hx
    by_cases hsell : x.sellerId = sellerId
    · by_cases hnt : nonTerminal x.status = true
      · have hno := h x hx hsell hnt
        rw [conflictsWith, hsell, hnt]
        simp only [beq_self_eq_true, Bool.true_and]
        rw [← Bool.not_eq_true,
          overlapClause_iff s e x.scheduledTimeStart x.scheduledTimeEnd hse (hne x hx)]
        exact hno
      · exact conflictsWith_terminal x sellerId s e (by simpa using hnt)
    · simp [conflictsWith, hsell]

/-- Witness for C3 at a concrete instance: `[0,2)` against stored `[1,3)`. -/
theorem C3_overlap_rule_witness :
    overlapClause 1 3 0 2 = true ↔ ((0:Nat) < 3 ∧ (1:Nat) < 2) :=
  C3_overlap_rule.1 0 2 1 3 (by decide) (by decide)

/-! ## C2 -/

/-- C2: for an existing appointment, `updateAppointmentStatus` succeeds
exactly when the (current, requested) pair is in the spec's table; every
other pair fails with the error naming both states (and, the result being
an `Except.error`, no state change is produced). -/
theorem C2_status_transition_table (db : DB) (appointmentId : Nat)
    (newStatus : AppointmentStatus) (changedBy : Nat) (notes : Option String)
    (appt : Appointment)
    (hfind : db.appointments.find? (fun a => a.id == appointmentId) = some appt) :
    ((∃ db', updateAppointmentStatus db appointmentId newStatus changedBy notes =
        .ok db') ↔ (appt.status, newStatus) ∈ specTransitionPairs) ∧
    ((appt.status, newStatus) ∉ specTransitionPairs →
      updateAppointmentStatus db appointmentId newStatus changedBy notes =
        .error ("Cannot change status from " ++ statusToString appt.status ++
          " to " ++ statusToString newStatus)) := by
  constructor
  · constructor
    · rintro ⟨db', hdb'⟩
      rw [updateAppointmentStatus, hfind] at hdb'
      by_cases h : (validTransitions appt.status).contains newStatus = true
      · exact (validTransitions_eq_spec _ _).mp h
      · rw [Bool.not_eq_true] at h
        have h' : newStatus ∉ validTransitions appt.status := by simp_all
        simp [h'] at hdb'
    · intro hmem
      have h : (validTransitions appt.status).contains newStatus = true :=
        (validTransitions_eq_spec _ _).mpr hmem
      have h' : newStatus ∈ validTransitions appt.status := by simp_all
      refine ⟨{ db with
          appointments := db.appointments.map (fun a =>
            if a.id == appointmentId then { a with status := newStatus } else a)
          statusHistory := db.statusHistory ++
            [{ appointmentId := appointmentId, status := newStatus,
               notes := notes, changedBy := changedBy }] }, ?_⟩
      rw [updateAppointmentStatus, hfind]
      simp [h']
  · intro hmem
    have h : (validTransitions appt.status).contains newStatus = false := by
      rw [← Bool.not_eq_true]
      intro hc
      exact hmem ((validTransitions_eq_spec _ _).mp hc)
    have h' : newStatus ∉ validTransitions appt.status := by simp_all
    rw [updateAppointmentStatus, hfind]
    simp [h']

def apptC2w : Appointment :=
  { id := 5, buyerId := 2, sellerId := 1, serviceId := 1, scheduledDate := 0,
    scheduledTimeStart := 0, scheduledTimeEnd := 3600000, totalAmount := 10,
    status := .COMPLETED }

def dbC2w : DB :=
  { services := [], sellers := [], sellerAvailability := [], sellerTimeOff := [],
    appointments := [apptC2w], statusHistory := [], nextId := 6 }

/-- Witness for C2: reopening a COMPLETED appointment fails with the error
naming both states. -/
theorem C2_status_transition_table_witness :
    ((∃ db', updateAppointmentStatus dbC2w 5 .PENDING 9 none = .ok db') ↔
      (apptC2w.status, AppointmentStatus.PENDING) ∈ specTransitionPairs) ∧
    ((apptC2w.status, AppointmentStatus.PENDING) ∉ specTransitionPairs →
      updateAppointmentStatus dbC2w 5 .PENDING 9 none =
        .error ("Cannot change status from " ++ statusToString apptC2w.status ++
          " to " ++ statusToString AppointmentStatus.PENDING)) :=
  C2_status_transition_table dbC2w 5 .PENDING 9 none apptC2w (by rfl)

/-! ## C5

The claim ("any call whose window length differs from the service duration
fails with a duration-mismatch error") is not true as stated: the approval
check runs before the duration check, so with an unapproved seller a
mismatched window fails with the approval error instead.  The duration
guarantee holds once the earlier validations pass. -/

def svcC5 : Service :=
  { id := 1, sellerId := 1, isActive := true, durationMinutes := 60, price := 50 }

def sellerC5 : Seller := { id := 1, isApproved := false }

def dbC5 : DB :=
  { services := [svcC5], sellers := [sellerC5], sellerAvailability := [],
    sellerTimeOff := [], appointments := [], statusHistory := [], nextId := 0 }

def dataC5 : AppointmentCreateData :=
  { serviceId := 1, scheduledDate := 0, scheduledTimeStart := 0,
    scheduledTimeEnd := msPerMinute }

/-- Counterexample to C5 as stated: the service exists and is active, the
requested window length (1 minute) differs from the configured duration
(60 minutes), yet the call fails with the seller-approval error, not the
duration-mismatch error. -/
theorem C5_counterexample :
    dbC5.services.find? (fun s => s.id == dataC5.serviceId && s.isActive) = some svcC5 ∧
    dataC5.scheduledTimeEnd ≠
      dataC5.scheduledTimeStart + svcC5.durationMinutes * msPerMinute ∧
    createAppointment dbC5 7 dataC5 =
      .error "This seller is not approved to take appointments" :=
  ⟨rfl, by decide, rfl⟩

/-- C5 (amended): when the service lookup succeeds and its seller is
approved, a window length different from the configured duration always
fails with the duration-mismatch error (an `Except.error`, so nothing is
persisted). -/
theorem C5_duration_mismatch (db : DB) (buyerId : Nat) (d : AppointmentCreateData)
    (service : Service) (seller : Seller)
    (hs : db.services.find? (fun s => s.id == d.serviceId && s.isActive) = some service)
    (hsl : db.sellers.find? (fun s => s.id == service.sellerId) = some seller)
    (hap : seller.isApproved = true)
    (hd : d.scheduledTimeEnd ≠ d.scheduledTimeStart + service.durationMinutes * msPerMinute) :
    createAppointment db buyerId d =
      .error ("Appointment duration must be " ++ toString service.durationMinutes ++
        " minutes for this service") := by
  rw [createAppointment, hs]
  dsimp only
  rw [hsl]
  simp [hap, hd]

def sellerC5w : Seller := { id := 1, isApproved := true }

def dbC5w : DB :=
  { services := [svcC5], sellers := [sellerC5w], sellerAvailability := [],
    sellerTimeOff := [], appointments := [], statusHistory := [], nextId := 0 }

/-- Witness for the amended C5 at a concrete mismatched request. -/
theorem C5_duration_mismatch_witness :
    createAppointment dbC5w 7 dataC5 =
      .error ("Appointment duration must be " ++ toString svcC5.durationMinutes ++
        " minutes for this service") :=
  C5_duration_mismatch dbC5w 7 dataC5 svcC5 sellerC5w (by rfl) (by rfl) (by rfl) (by decide)

/-! ## C10 -/

/-- C10: when no stored service has the requested id, both slot queries
throw "Service not found"; conversely a non-error result certifies the
service exists, so the `none` / `[]` outcomes only occur for existing
services. -/
theorem C10_service_not_found (db : DB)
    (serviceId fromDate now daysAhead date intervalMinutes : Nat) :
    ((∀ s ∈ db.services, s.id ≠ serviceId) →
      getNextAvailableSlot db serviceId fromDate now daysAhead =
        .error "Service not found" ∧
      getAvailableTimeSlots db serviceId date intervalMinutes =
        .error "Service not found") ∧
    (∀ r, getNextAvailableSlot db serviceId fromDate now daysAhead = .ok r →
      ∃ s ∈ db.services, s.id = serviceId) ∧
    (∀ l, getAvailableTimeSlots db serviceId date intervalMinutes = .ok l →
      ∃ s ∈ db.services, s.id = serviceId) := by
  have hmem : ∀ {s : Service},
      db.services.find? (fun s => s.id == serviceId) = some s →
      s ∈ db.services ∧ s.id = serviceId := by
    intro s hf
    exact ⟨List.mem_of_find?_eq_some hf, by simpa using List.find?_some hf⟩
  refine ⟨?_, ?_, ?_⟩
  · intro h
    have hf : db.services.find? (fun s => s.id == serviceId) = none := by
      rw [List.find?_eq_none]
      intro s hs
      simpa using h s hs
    exact ⟨by rw [getNextAvailableSlot, hf], by rw [getAvailableTimeSlots, hf]⟩
  · intro r hr
    rw [getNextAvailableSlot] at hr
    cases hf : db.services.find? (fun s => s.id == serviceId) with
    | none => rw [hf] at hr; cases hr
    | some s => exact ⟨s, (hmem hf).1, (hmem hf).2⟩
  · intro l hl
    rw [getAvailableTimeSlots] at hl
    cases hf : db.services.find? (fun s => s.id == serviceId) with
    | none => rw [hf] at hl; cases hl
    | some s => exact ⟨s, (hmem hf).1, (hmem hf).2⟩

def dbC10 : DB :=
  { services := [svcC5], sellers := [], sellerAvailability := [],
    sellerTimeOff := [], appointments := [], statusHistory := [], nextId := 0 }

/-- Witness for C10: a store holding only service 1 throws on service 2. -/
theorem C10_service_not_found_witness :
    getNextAvailableSlot dbC10 2 0 0 30 = .error "Service not found" ∧
    getAvailableTimeSlots dbC10 2 0 30 = .error "Service not found" :=
  (C10_service_not_found dbC10 2 0 0 30 0 30).1 (by decide)

/-! ## C7

The claim says time-off is refused whenever the range intersects any
non-terminal appointment.  The source only queries statuses PENDING and
CONFIRMED, so an IN_PROGRESS (non-terminal) appointment inside the range
does not block, refuting the claim; and the appointment condition is on
`scheduledDate` lying in the inclusive `[startDate, endDate]` range. -/

def apptC7 : Appointment :=
  { id := 0, buyerId := 2, sellerId := 1, serviceId := 1,
    scheduledDate := 10 * msPerDay,
    scheduledTimeStart := 10 * msPerDay + 9 * msPerHour,
    scheduledTimeEnd := 10 * msPerDay + 10 * msPerHour,
    totalAmount := 0, status := .IN_PROGRESS }

def dbC7 : DB :=
  { services := [], sellers := [], sellerAvailability := [], sellerTimeOff := [],
    appointments := [apptC7], statusHistory := [], nextId := 1 }

def rowC7 : SellerTimeOffRow :=
  { sellerId := 1, startDate := 9 * msPerDay, endDate := 11 * msPerDay,
    reason := none, isActive := true }

/-- Counterexample to C7 as stated: the seller has an IN_PROGRESS
(non-terminal) appointment whose date and whole time window lie inside the
requested range, yet `addTimeOff` succeeds and persists the row. -/
theorem C7_counterexample :
    nonTerminal apptC7.status = true ∧
    rowC7.startDate ≤ apptC7.scheduledDate ∧
    apptC7.scheduledDate ≤ rowC7.endDate ∧
    overlapWindows apptC7.scheduledTimeStart apptC7.scheduledTimeEnd
      rowC7.startDate rowC7.endDate ∧
    apptC7.sellerId = 1 ∧
    addTimeOff dbC7 1 (9 * msPerDay) (11 * msPerDay) none =
      .ok ({ dbC7 with sellerTimeOff := [rowC7] }, rowC7) :=
  ⟨rfl, by decide, by decide, by unfold overlapWindows; decide, rfl, rfl⟩

/-- C7 (amended): `addTimeOff` fails with the overlap error whenever the
range three-clause-overlaps an existing active time-off of the seller;
failing that, it fails with the appointment error whenever some PENDING or
CONFIRMED appointment of the seller has `scheduledDate` inside the
inclusive range (IN_PROGRESS appointments do not block); when neither
condition holds it persists exactly one new active time-off row. -/
theorem C7_time_off_rules (db : DB) (sellerId startDate endDate : Nat)
    (reason : Option String) :
    ((∃ t ∈ db.sellerTimeOff, t.sellerId = sellerId ∧ t.isActive = true ∧
        overlapClause t.startDate t.endDate startDate endDate = true) →
      addTimeOff db sellerId startDate endDate reason =
        .error "Time off period overlaps with existing time off") ∧
    ((¬ ∃ t ∈ db.sellerTimeOff, t.sellerId = sellerId ∧ t.isActive = true ∧
        overlapClause t.startDate t.endDate startDate endDate = true) →
      (∃ a ∈ db.appointments, a.sellerId = sellerId ∧
        (a.status = .PENDING ∨ a.status = .CONFIRMED) ∧
        startDate ≤ a.scheduledDate ∧ a.scheduledDate ≤ endDate) →
      addTimeOff db sellerId startDate endDate reason =
        .error "Cannot add time off when there are pending or confirmed appointments during this period") ∧
    ((¬ ∃ t ∈ db.sellerTimeOff, t.sellerId = sellerId ∧ t.isActive = true ∧
        overlapClause t.startDate t.endDate startDate endDate = true) →
      (¬ ∃ a ∈ db.appointments, a.sellerId = sellerId ∧
        (a.status = .PENDING ∨ a.status = .CONFIRMED) ∧
        startDate ≤ a.scheduledDate ∧ a.scheduledDate ≤ endDate) →
      addTimeOff db sellerId startDate endDate reason =
        .ok ({ db with sellerTimeOff := db.sellerTimeOff ++
                 [{ sellerId := sellerId, startDate := startDate, endDate := endDate,
                    reason := reason, isActive := true }] },
             { sellerId := sellerId, startDate := startDate, endDate := endDate,
               reason := reason, isActive := true })) := by
  have hover : (db.sellerTimeOff.find? (fun t =>
      t.sellerId == sellerId && t.isActive &&
        overlapClause t.startDate t.endDate startDate endDate)).isSome ↔
      ∃ t ∈ db.sellerTimeOff, t.sellerId = sellerId ∧ t.isActive = true ∧
        overlapClause t.startDate t.endDate startDate endDate = true := by
    rw [List.find?_isSome]
    constructor
    · rintro ⟨t, ht, hp⟩
      simp only [Bool.and_eq_true, beq_iff_eq] at hp
      exact ⟨t, ht, hp.1.1, hp.1.2, hp.2⟩
    · rintro ⟨t, ht, h1, h2, h3⟩
      exact ⟨t, ht, by simp [h1, h2, h3]⟩
  have happt : 0 < db.appointments.countP (fun a =>
      a.sellerId == sellerId &&
      (a.status == .PENDING || a.status == .CONFIRMED) &&
      (decide (startDate ≤ a.scheduledDate) && decide (a.scheduledDate ≤ endDate))) ↔
      ∃ a ∈ db.appointments, a.sellerId = sellerId ∧
        (a.status = .PENDING ∨ a.status = .CONFIRMED) ∧
        startDate ≤ a.scheduledDate ∧ a.scheduledDate ≤ endDate := by
    rw [List.countP_pos_iff]
    constructor
    · rintro ⟨a, ha, hp⟩
      simp only [Bool.and_eq_true, Bool.or_eq_true, beq_iff_eq,
        decide_eq_true_eq] at hp
      exact ⟨a, ha, hp.1.1, hp.1.2, hp.2.1, hp.2.2⟩
    · rintro ⟨a, ha, h1, h2, h3, h4⟩
      refine ⟨a, ha, ?_⟩
      simp only [Bool.and_eq_true, Bool.or_eq_true, beq_iff_eq,
        decide_eq_true_eq]
      exact ⟨⟨h1, h2⟩, h3, h4⟩
  refine ⟨?_, ?_, ?_⟩
  · intro h
    rw [addTimeOff]
    simp only [hover.mpr h, if_true]
  · intro hno h
    rw [addTimeOff]
    have h1 : (db.sellerTimeOff.find? (fun t =>
        t.sellerId == sellerId && t.isActive &&
          overlapClause t.startDate t.endDate startDate endDate)).isSome = false := by
      rw [← Bool.not_eq_true, hover]; exact hno
    simp only [h1, Bool.false_eq_true, if_false, happt.mpr h, if_true]
  · intro hno hnoa
    rw [addTimeOff]
    have h1 : (db.sellerTimeOff.find? (fun t =>
        t.sellerId == sellerId && t.isActive &&
          overlapClause t.startDate t.endDate startDate endDate)).isSome = false := by
      rw [← Bool.not_eq_true, hover]; exact hno
    have h2 : ¬ (0 < db.appointments.countP (fun a =>
        a.sellerId == sellerId &&
        (a.status == .PENDING || a.status == .CONFIRMED) &&
        (decide (startDate ≤ a.scheduledDate) && decide (a.scheduledDate ≤ endDate)))) := by
      rw [happt]; exact hnoa
    simp only [h1, Bool.false_eq_true, if_false, h2]

/-- Witness for the amended C7: with no stored time-off and only the
IN_PROGRESS appointment, the insertion path fires. -/
theorem C7_time_off_rules_witness :
    addTimeOff dbC7 1 (9 * msPerDay) (11 * msPerDay) none =
      .ok ({ dbC7 with sellerTimeOff := dbC7.sellerTimeOff ++
               [{ sellerId := 1, startDate := 9 * msPerDay, endDate := 11 * msPerDay,
                  reason := none, isActive := true }] },
           { sellerId := 1, startDate := 9 * msPerDay, endDate := 11 * msPerDay,
             reason := none, isActive := true }) :=
  (C7_time_off_rules dbC7 1 (9 * msPerDay) (11 * msPerDay) none).2.2
    (by rintro ⟨t, ht, _⟩; simp [dbC7] at ht)
    (by
      rintro ⟨a, ha, _, hst, _⟩
      simp only [dbC7, List.mem_singleton] at ha
      subst ha
      simp [apptC7] at hst)

/-! ## C6 -/

/-- The appointment record `createAppointment` persists on success. -/
def createdAppointment (db : DB) (buyerId : Nat) (d : AppointmentCreateData)
    (service : Service) : Appointment :=
  { id := db.nextId
    buyerId := buyerId
    sellerId := service.sellerId
    serviceId := d.serviceId
    scheduledDate := d.scheduledDate
    scheduledTimeStart := d.scheduledTimeStart
    scheduledTimeEnd := d.scheduledTimeEnd
    totalAmount := service.price
    status := .PENDING }

/-- The store state `createAppointment` leaves behind on success. -/
def createdDB (db : DB) (buyerId : Nat) (d : AppointmentCreateData)
    (service : Service) : DB :=
  { db with
    nextId := db.nextId + 1
    appointments := db.appointments ++ [createdAppointment db buyerId d service]
    statusHistory := db.statusHistory ++
      [{ appointmentId := db.nextId
         status := .PENDING
         notes := some "Appointment created"
         changedBy := buyerId }] }

/-- C6: with zero recurring-availability rows for the seller on the target
weekday, `getAvailableTimeSlots` returns the empty list, while
`createAppointment` for a window on that same weekday still succeeds when
its own validations pass (availability is never consulted by creation: the
day check is disabled in the source). -/
theorem C6_no_row_asymmetry (db : DB)
    (serviceId date intervalMinutes buyerId : Nat) (d : AppointmentCreateData)
    (service : Service) (seller : Seller)
    (hs0 : db.services.find? (fun s => s.id == serviceId) = some service)
    (hrows : ∀ r ∈ db.sellerAvailability,
      ¬(r.sellerId = service.sellerId ∧ r.dayOfWeek = dayOfWeek date))
    (hs : db.services.find? (fun s => s.id == d.serviceId && s.isActive) = some service)
    (hsl : db.sellers.find? (fun s => s.id == service.sellerId) = some seller)
    (hap : seller.isApproved = true)
    (hdur : d.scheduledTimeEnd = d.scheduledTimeStart + service.durationMinutes * msPerMinute)
    (hfree : checkTimeSlotAvailability db service.sellerId
      d.scheduledTimeStart d.scheduledTimeEnd = true)
    (_hday : dayOfWeek d.scheduledTimeStart = dayOfWeek date) :
    getAvailableTimeSlots db serviceId date intervalMinutes = .ok [] ∧
    ∃ db' a, createAppointment db buyerId d = .ok (db', a) ∧ a.status = .PENDING := by
  constructor
  · rw [getAvailableTimeSlots, hs0]
    have hempty : getSellerAvailabilityForDay db service.sellerId (dayOfWeek date) = [] := by
      rw [getSellerAvailabilityForDay, List.filter_eq_nil_iff]
      intro r hr
      simp only [Bool.and_eq_true, beq_iff_eq]
      intro hcontr
      exact hrows r hr ⟨hcontr.1.1, hcontr.1.2⟩
    simp [hempty]
  · refine ⟨createdDB db buyerId d service, createdAppointment db buyerId d service,
      ?_, rfl⟩
    simp only [createAppointment, hs, hsl]
    rw [if_neg (by simp [hap]), if_neg (not_not_intro hdur), if_neg (by simp [hfree])]
    rfl

def svcC6 : Service :=
  { id := 1, sellerId := 1, isActive := true, durationMinutes := 60, price := 50 }

def sellerC6 : Seller := { id := 1, isApproved := true }

def dbC6 : DB :=
  { services := [svcC6], sellers := [sellerC6], sellerAvailability := [],
    sellerTimeOff := [], appointments := [], statusHistory := [], nextId := 0 }

def dataC6 : AppointmentCreateData :=
  { serviceId := 1, scheduledDate := 5 * msPerDay,
    scheduledTimeStart := 5 * msPerDay + 10 * msPerHour,
    scheduledTimeEnd := 5 * msPerDay + 11 * msPerHour }

/-- Witness for C6: day 5 since the epoch is a Tuesday, the seller has no
availability rows, slots come back empty, and creation succeeds. -/
theorem C6_no_row_asymmetry_witness :
    getAvailableTimeSlots dbC6 1 (5 * msPerDay) 30 = .ok [] ∧
    ∃ db' a, createAppointment dbC6 3 dataC6 = .ok (db', a) ∧
      a.status = .PENDING :=
  C6_no_row_asymmetry dbC6 1 (5 * msPerDay) 30 3 dataC6 svcC6 sellerC6
    (by rfl) (by intro r hr; simp [dbC6] at hr) (by rfl) (by rfl) (by rfl)
    (by decide) (by decide) (by decide)

/-! ## Inversion lemmas for the two ledger mutations -/

/-- Everything a successful `createAppointment` guarantees about its output
state: the appointment and its audit row are appended together, the fresh
id comes from the counter, the status is PENDING, and the stored window
passed the conflict check against the previous state. -/
theorem createAppointment_ok {db db' : DB} {buyerId : Nat}
    {d : AppointmentCreateData} {a : Appointment}
    (h : createAppointment db buyerId d = .ok (db', a)) :
    db'.appointments = db.appointments ++ [a] ∧
    db'.statusHistory = db.statusHistory ++
      [{ appointmentId := a.id, status := .PENDING,
         notes := some "Appointment created", changedBy := buyerId }] ∧
    a.id = db.nextId ∧ db'.nextId = db.nextId + 1 ∧ a.status = .PENDING ∧
    checkTimeSlotAvailability db a.sellerId a.scheduledTimeStart
      a.scheduledTimeEnd = true := by
  rw [createAppointment] at h
  cases hs : db.services.find? (fun s => s.id == d.serviceId && s.isActive) with
  | none => rw [hs] at h; cases h
  | some service =>
    rw [hs] at h
    dsimp only at h
    cases hsl : db.sellers.find? (fun s => s.id == service.sellerId) with
    | none => rw [hsl] at h; cases h
    | some seller =>
      rw [hsl] at h
      dsimp only at h
      split at h
      · cases h
      · split at h
        · cases h
        · split at h
          · cases h
          case isFalse hfree =>
            cases h
            refine ⟨rfl, rfl, rfl, rfl, rfl, ?_⟩
            simpa using hfree

/-- Everything a successful `updateAppointmentStatus` guarantees: some
stored appointment with the requested id was found, the transition was in
the table, the status map and the single audit append are the whole state
change. -/
theorem updateAppointmentStatus_ok {db db' : DB} {appointmentId : Nat}
    {newStatus : AppointmentStatus} {changedBy : Nat} {notes : Option String}
    (h : updateAppointmentStatus db appointmentId newStatus changedBy notes =
      .ok db') :
    ∃ appt, db.appointments.find? (fun a => a.id == appointmentId) = some appt ∧
      (validTransitions appt.status).contains newStatus = true ∧
      db'.appointments = db.appointments.map (fun a =>
        if a.id == appointmentId then { a with status := newStatus } else a) ∧
      db'.statusHistory = db.statusHistory ++
        [{ appointmentId := appointmentId, status := newStatus,
           notes := notes, changedBy := changedBy }] ∧
      db'.nextId = db.nextId := by
  rw [updateAppointmentStatus] at h
  cases hf : db.appointments.find? (fun a => a.id == appointmentId) with
  | none => rw [hf] at h; cases h
  | some appt =>
    rw [hf] at h
    dsimp only at h
    split at h
    · cases h
    case isFalse hc =>
      cases h
      refine ⟨appt, rfl, ?_, rfl, rfl, rfl⟩
      simpa using hc

/-! ## Reachable-state invariants -/

/-- Every stored appointment id is below the id counter. -/
def IdBound (db : DB) : Prop := ∀ a ∈ db.appointments, a.id < db.nextId

/-- Stored appointment ids are pairwise distinct. -/
def IdsNodup (db : DB) : Prop := (db.appointments.map (fun a => a.id)).Nodup

theorem reachable_invariants {db : DB} (h : Reachable db) :
    IdBound db ∧ IdsNodup db ∧ NoDoubleBooking db := by
  induction h with
  | init db h1 _ =>
    refine ⟨?_, ?_, ?_⟩ <;> simp [IdBound, IdsNodup, NoDoubleBooking, h1]
  | create db db' buyerId d a _ hok ih =>
    obtain ⟨happ, _, hid, hnext, _, hfree⟩ := createAppointment_ok hok
    obtain ⟨ihB, ihN, ihD⟩ := ih
    have hfresh : ∀ x ∈ db.appointments, x.id ≠ a.id := by
      intro x hx
      have := ihB x hx
      omega
    refine ⟨?_, ?_, ?_⟩
    · intro x hx
      rw [happ, List.mem_append] at hx
      rw [hnext]
      rcases hx with hx | hx
      · exact Nat.lt_succ_of_lt (ihB x hx)
      · simp only [List.mem_singleton] at hx
        subst hx
        omega
    · rw [IdsNodup, happ, List.map_append]
      rw [List.nodup_append]
      refine ⟨ihN, by simp, ?_⟩
      intro i hi hj
      simp only [List.map_cons, List.map_nil, List.mem_singleton] at hj
      obtain ⟨x, hx, hxi⟩ := List.mem_map.mp hi
      exact hfresh x hx (by rw [hxi, hj])
    · rw [NoDoubleBooking, happ, List.pairwise_append]
      refine ⟨ihD, by simp, ?_⟩
      intro x hx y hy
      simp only [List.mem_singleton] at hy
      rw [hy]
      intro hsell hnt1 _ hov
      have hclause := overlapWindows_imp_clause _ _ _ _ hov
      have hconf : conflictsWith x a.sellerId a.scheduledTimeStart
          a.scheduledTimeEnd = true := by
        rw [conflictsWith, hsell, hnt1]
        simpa using hclause
      have := (checkTimeSlotAvailability_eq_true db a.sellerId
        a.scheduledTimeStart a.scheduledTimeEnd).mp hfree x hx
      rw [hconf] at this
      cases this
  | update db db' appointmentId newStatus changedBy notes _ hok ih =>
    obtain ⟨appt, hf, hvalid, happ, _, hnext⟩ := updateAppointmentStatus_ok hok
    obtain ⟨ihB, ihN, ihD⟩ := ih
    have hidmap : ∀ x : Appointment,
        (if x.id == appointmentId then { x with status := newStatus } else x).id
          = x.id := by
      intro x
      by_cases hc : x.id == appointmentId <;> simp [hc]
    have hids : db'.appointments.map (fun a => a.id) =
        db.appointments.map (fun a => a.id) := by
      rw [happ, List.map_map]
      exact List.map_congr_left (fun x _ => hidmap x)
    refine ⟨?_, ?_, ?_⟩
    · intro x hx
      rw [happ, List.mem_map] at hx
      obtain ⟨y, hy, hyx⟩ := hx
      rw [hnext, ← hyx, hidmap y]
      exact ihB y hy
    · rw [IdsNodup, hids]
      exact ihN
    · rw [NoDoubleBooking, happ, List.pairwise_map]
      have hmem := List.mem_of_find?_eq_some hf
      have hfid : appt.id = appointmentId := by
        simpa using List.find?_some hf
    -- a matching element equals the found appointment, by id injectivity
      have huniq : ∀ x ∈ db.appointments, x.id = appointmentId → x = appt := by
        intro x hx hxid
        exact List.inj_on_of_nodup_map ihN hx hmem (by rw [hxid, hfid])
      refine ihD.imp_of_mem ?_
      intro x y hx hy hR
      intro hsell hnt1 hnt2 hov
      have hstat : ∀ z ∈ db.appointments,
          nonTerminal (if z.id == appointmentId then
            { z with status := newStatus } else z).status = true →
          nonTerminal z.status = true := by
        intro z hz hzn
        by_cases hc : z.id == appointmentId
        · rw [if_pos hc] at hzn
          have hz' : z = appt := huniq z hz (by simpa using hc)
          subst hz'
          exact validTransitions_nonTerminal _ _ hvalid hzn
        · rwa [if_neg hc] at hzn
      have hsell' : x.sellerId = y.sellerId := by
        by_cases hcx : x.id == appointmentId <;>
          by_cases hcy : y.id == appointmentId <;>
            simpa [hcx, hcy] using hsell
      have hov' : overlapWindows x.scheduledTimeStart x.scheduledTimeEnd
          y.scheduledTimeStart y.scheduledTimeEnd := by
        by_cases hcx : x.id == appointmentId <;>
          by_cases hcy : y.id == appointmentId <;>
            simpa [hcx, hcy] using hov
      exact hR hsell' (hstat x hx hnt1) (hstat y hy hnt2) hov'

/-- Appointments persisted in a reachable state always carry at least one
status-history row. -/
theorem reachable_audit {db : DB} (h : Reachable db) :
    ∀ a ∈ db.appointments, ∃ r ∈ db.statusHistory, r.appointmentId = a.id := by
  induction h with
  | init db h1 _ =>
    intro a ha
    rw [h1] at ha
    cases ha
  | create db db' buyerId d a _ hok ih =>
    obtain ⟨happ, hhist, _, _, _, _⟩ := createAppointment_ok hok
    intro x hx
    rw [happ, List.mem_append] at hx
    rcases hx with hx | hx
    · obtain ⟨r, hr, hrid⟩ := ih x hx
      exact ⟨r, by rw [hhist]; exact List.mem_append_left _ hr, hrid⟩
    · simp only [List.mem_singleton] at hx
      subst hx
      refine ⟨{ appointmentId := x.id, status := .PENDING,
                notes := some "Appointment created", changedBy := buyerId },
        ?_, rfl⟩
      rw [hhist]
      exact List.mem_append_right _ (by simp)
  | update db db' appointmentId newStatus changedBy notes _ hok ih =>
    obtain ⟨appt, _, _, happ, hhist, _⟩ := updateAppointmentStatus_ok hok
    intro x hx
    rw [happ, List.mem_map] at hx
    obtain ⟨y, hy, hyx⟩ := hx
    obtain ⟨r, hr, hrid⟩ := ih y hy
    refine ⟨r, by rw [hhist]; exact List.mem_append_left _ hr, ?_⟩
    rw [← hyx, hrid]
    by_cases hc : y.id == appointmentId <;> simp [hc]

/-! ## C1 -/

/-- C1: the no-double-booking invariant holds in every state reachable
through `createAppointment` and `updateAppointmentStatus` from an empty
ledger: no two distinct same-seller appointments with intersecting
`[start,end)` windows are both non-terminal, because creation refuses
conflicting windows and no status update moves a terminal appointment back
to a non-terminal status. -/
theorem C1_no_double_booking {db : DB} (h : Reachable db) : NoDoubleBooking db :=
  (reachable_invariants h).2.2

/-- Witness for C1: the state reached by one concrete successful creation
satisfies the invariant. -/
theorem C1_no_double_booking_witness :
    NoDoubleBooking (createdDB dbC6 3 dataC6 svcC6) :=
  C1_no_double_booking
    (Reachable.create dbC6 (createdDB dbC6 3 dataC6 svcC6) 3 dataC6
      (createdAppointment dbC6 3 dataC6 svcC6)
      (Reachable.init dbC6 rfl rfl) (by rfl))

/-! ## C8 -/

/-- C8: each ledger mutation persists its entity write and its audit write
as one unit.  A successful `createAppointment` appends exactly the new
PENDING appointment and exactly its one "Appointment created" history row;
a successful `updateAppointmentStatus` performs exactly the status map and
appends exactly one history row; a failed call returns `Except.error` and
produces no state at all; consequently in every reachable state each
appointment has at least one audit row. -/
theorem C8_atomic_audit_pairing (db : DB) :
    (∀ buyerId d db' a, createAppointment db buyerId d = .ok (db', a) →
      db'.appointments = db.appointments ++ [a] ∧ a.status = .PENDING ∧
      db'.statusHistory = db.statusHistory ++
        [{ appointmentId := a.id, status := .PENDING,
           notes := some "Appointment created", changedBy := buyerId }]) ∧
    (∀ appointmentId newStatus changedBy notes db',
      updateAppointmentStatus db appointmentId newStatus changedBy notes = .ok db' →
      db'.appointments = db.appointments.map (fun a =>
        if a.id == appointmentId then { a with status := newStatus } else a) ∧
      db'.statusHistory = db.statusHistory ++
        [{ appointmentId := appointmentId, status := newStatus,
           notes := notes, changedBy := changedBy }]) ∧
    (Reachable db → ∀ a ∈ db.appointments,
      ∃ r ∈ db.statusHistory, r.appointmentId = a.id) := by
  refine ⟨?_, ?_, fun hr => reachable_audit hr⟩
  · intro buyerId d db' a h
    obtain ⟨h1, h2, _, _, h5, _⟩ := createAppointment_ok h
    exact ⟨h1, h5, h2⟩
  · intro appointmentId newStatus changedBy notes db' h
    obtain ⟨appt, _, _, h3, h4, _⟩ := updateAppointmentStatus_ok h
    exact ⟨h3, h4⟩

/-- Witness for C8 on a concrete successful creation. -/
theorem C8_atomic_audit_pairing_witness :
    (createdDB dbC6 3 dataC6 svcC6).appointments =
      dbC6.appointments ++ [createdAppointment dbC6 3 dataC6 svcC6] ∧
    (createdAppointment dbC6 3 dataC6 svcC6).status = .PENDING ∧
    (createdDB dbC6 3 dataC6 svcC6).statusHistory = dbC6.statusHistory ++
      [{ appointmentId := (createdAppointment dbC6 3 dataC6 svcC6).id,
         status := .PENDING, notes := some "Appointment created", changedBy := 3 }] :=
  (C8_atomic_audit_pairing dbC6).1 3 dataC6 (createdDB dbC6 3 dataC6 svcC6)
    (createdAppointment dbC6 3 dataC6 svcC6) (by rfl)

/-! ## C4

Concrete Monday scenario: epoch day 4 (1970-01-05) is a Monday
(`dayOfWeek (4 * msPerDay) = 1`).  The seller works Mondays 09:00-12:00,
the service lasts 60 minutes, and the search starts Monday 08:00. -/

def baseMon : Nat := 4 * msPerDay

def svcC4 : Service :=
  { id := 1, sellerId := 1, isActive := true, durationMinutes := 60, price := 100 }

def sellerC4 : Seller := { id := 1, isApproved := true }

def availC4 : SellerAvailabilityRow :=
  { sellerId := 1, dayOfWeek := 1, startTime := "09:00", endTime := "12:00",
    isAvailable := true }

def dbC4a : DB :=
  { services := [svcC4], sellers := [sellerC4], sellerAvailability := [availC4],
    sellerTimeOff := [], appointments := [], statusHistory := [], nextId := 100 }

def apptC4 : Appointment :=
  { id := 100, buyerId := 7, sellerId := 1, serviceId := 1, scheduledDate := baseMon,
    scheduledTimeStart := baseMon + 9 * msPerHour,
    scheduledTimeEnd := baseMon + 10 * msPerHour,
    totalAmount := 100, status := .PENDING }

def dbC4b : DB := { dbC4a with appointments := [apptC4] }

set_option maxRecDepth 40000 in
/-- C4: the slot search walks days forward and probes each eligible window
with a constant 30-minute stride.  Concretely: on the empty Monday the
09:00-10:00 slot is returned; once that slot is booked (a PENDING
appointment), the same search returns 10:00-11:00.  Structurally: a failed
probe advances the probe start by exactly 30 minutes (not by the service
duration), and a day that yields nothing advances the scan by exactly one
calendar day. -/
theorem C4_next_slot_scan :
    getNextAvailableSlot dbC4a 1 (baseMon + 8 * msPerHour) (baseMon + 8 * msPerHour) 30 =
      .ok (some { date := baseMon, startTime := baseMon + 9 * msPerHour,
                  endTime := baseMon + 10 * msPerHour }) ∧
    getNextAvailableSlot dbC4b 1 (baseMon + 8 * msPerHour) (baseMon + 8 * msPerHour) 30 =
      .ok (some { date := baseMon, startTime := baseMon + 10 * msPerHour,
                  endTime := baseMon + 11 * msPerHour }) ∧
    (∀ db sellerId durationMinutes currentDate dayEnd fuel slotStart,
      slotStart < dayEnd →
      ¬(slotStart + durationMinutes * msPerMinute ≤ dayEnd ∧
        (isSellerAvailable db sellerId currentDate slotStart
          (slotStart + durationMinutes * msPerMinute)).available = true) →
      findSlotInDayGo db sellerId durationMinutes currentDate dayEnd (fuel + 1) slotStart =
        findSlotInDayGo db sellerId durationMinutes currentDate dayEnd fuel
          (slotStart + 30 * msPerMinute)) ∧
    (∀ db sellerId durationMinutes endDate now fuel currentDate,
      currentDate ≤ endDate →
      probeDay db sellerId durationMinutes now currentDate = none →
      getNextAvailableSlotGo db sellerId durationMinutes endDate now (fuel + 1) currentDate =
        getNextAvailableSlotGo db sellerId durationMinutes endDate now fuel
          (currentDate + msPerDay)) := by
  refine ⟨by rfl, by rfl, ?_, ?_⟩
  · intro db sellerId durationMinutes currentDate dayEnd fuel slotStart hlt hno
    rw [findSlotInDayGo, if_pos hlt, if_neg]
    simpa using hno
  · intro db sellerId durationMinutes endDate now fuel currentDate hle hnone
    rw [getNextAvailableSlotGo, if_pos hle, hnone]

/-- Witness for C4: the stride equation at a concrete failing probe (empty
store, no availability row, so the probe is unavailable), together with the
concrete Monday answer. -/
theorem C4_next_slot_scan_witness :
    getNextAvailableSlot dbC4a 1 (baseMon + 8 * msPerHour) (baseMon + 8 * msPerHour) 30 =
      .ok (some { date := baseMon, startTime := baseMon + 9 * msPerHour,
                  endTime := baseMon + 10 * msPerHour }) ∧
    findSlotInDayGo dbC10 1 60 0 (4 * msPerHour) 6 0 =
      findSlotInDayGo dbC10 1 60 0 (4 * msPerHour) 5 (30 * msPerMinute) :=
  ⟨C4_next_slot_scan.1,
    C4_next_slot_scan.2.2.1 dbC10 1 60 0 (4 * msPerHour) 5 0 (by decide)
      (by intro hc; exact absurd hc.2 (by decide))⟩

/-! ## C9

The claim's window-end and not-before-now guarantees hold, but its "probe
start rounded up to the next 30-minute boundary" does not: the source's
`setMinutes(Math.ceil(getMinutes/30)*30)` rounds only the minutes
component and keeps the seconds/milliseconds of "now", so the probe start
(and hence a returned slot start) need not lie on a 30-minute boundary. -/

def nowC9 : Nat := baseMon + 9 * msPerHour + 45000

set_option maxRecDepth 40000 in
/-- Counterexample to C9's rounding conjunct: searching at 09:00:45 on the
Monday of the 09:00-12:00 window returns a slot starting 09:00:45 - a
time-of-day that is not a multiple of 30 minutes - although the search day
is "today" and the window start lay before "now". -/
theorem C9_counterexample :
    getNextAvailableSlot dbC4a 1 nowC9 nowC9 30 =
      .ok (some { date := baseMon, startTime := baseMon + 9 * msPerHour + 45000,
                  endTime := baseMon + 10 * msPerHour + 45000 }) ∧
    sameDay baseMon nowC9 = true ∧
    setHours baseMon 9 0 < nowC9 ∧
    (baseMon + 9 * msPerHour + 45000) % (30 * msPerMinute) ≠ 0 :=
  ⟨by rfl, by decide, by decide, by decide⟩

/-- Rounding the probe start never moves it backwards, lands the minutes
component on a multiple of 30, and keeps the sub-minute part of `t`. -/
theorem roundUpProbeStart_spec (t : Nat) :
    t ≤ roundUpProbeStart t ∧
    getMinutes (roundUpProbeStart t) % 30 = 0 ∧
    roundUpProbeStart t % msPerMinute = t % msPerMinute := by
  rw [roundUpProbeStart, setMinutes]
  simp only [getMinutes, msPerMinute]
  omega

/-- Any slot the inner probe loop returns belongs to the probed day, ends
no later than the day window end, and starts no earlier than the initial
probe start. -/
theorem findSlotInDayGo_some {db : DB} {sid dur cd dayEnd : Nat} :
    ∀ fuel slotStart slot,
      findSlotInDayGo db sid dur cd dayEnd fuel slotStart = some slot →
      slot.date = cd ∧ slot.endTime ≤ dayEnd ∧ slotStart ≤ slot.startTime := by
  intro fuel
  induction fuel with
  | zero =>
    intro s slot h
    rw [findSlotInDayGo] at h
    cases h
  | succ n ih =>
    intro s slot h
    rw [findSlotInDayGo] at h
    dsimp only at h
    split at h
    · split at h
      case isTrue hcond =>
        cases h
        simp only [Bool.and_eq_true, decide_eq_true_eq] at hcond
        exact ⟨rfl, hcond.1, Nat.le_refl _⟩
      case isFalse =>
        obtain ⟨h1, h2, h3⟩ := ih _ _ h
        exact ⟨h1, h2, le_trans (Nat.le_add_right _ _) h3⟩
    · cases h

/-- Any slot `probeDay` returns belongs to that day, respects the recurring
window end recorded in the availability row it resolved, and - when that
day is "today" - does not start before "now". -/
theorem probeDay_some {db : DB} {sid dur now cd : Nat} {slot : SlotAnswer}
    (h : probeDay db sid dur now cd = some slot) :
    slot.date = cd ∧
    (∃ row, findAvailabilityRow db sid (dayOfWeek cd) = some row ∧
      row.isAvailable = true ∧
      slot.endTime ≤ setHours cd (parseHHMM row.endTime).1 (parseHHMM row.endTime).2) ∧
    (sameDay cd now = true → now ≤ slot.startTime) := by
  rw [probeDay] at h
  cases hrow : findAvailabilityRow db sid (dayOfWeek cd) with
  | none => rw [hrow] at h; cases h
  | some row =>
    rw [hrow] at h
    dsimp only at h
    split at h
    case isFalse => cases h
    case isTrue hav =>
      split at h
      · cases h
      case h_2 hto =>
        obtain ⟨h1, h2, h3⟩ := findSlotInDayGo_some _ _ _ h
        refine ⟨h1, ⟨row, rfl, hav, h2⟩, ?_⟩
        intro hsame
        refine le_trans ?_ h3
        split
        case isTrue hc =>
          exact (roundUpProbeStart_spec now).1
        case isFalse hc =>
          simp only [hsame, Bool.true_and, decide_eq_true_eq, not_lt] at hc
          exact hc

/-- Any slot the day scan returns comes from `probeDay` on some day. -/
theorem getNextAvailableSlotGo_some {db : DB} {sid dur endDate now : Nat} :
    ∀ fuel cd slot,
      getNextAvailableSlotGo db sid dur endDate now fuel cd = some slot →
      ∃ cd', probeDay db sid dur now cd' = some slot := by
  intro fuel
  induction fuel with
  | zero =>
    intro cd slot h
    rw [getNextAvailableSlotGo] at h
    cases h
  | succ n ih =>
    intro cd slot h
    rw [getNextAvailableSlotGo] at h
    split at h
    · cases hp : probeDay db sid dur now cd with
      | none =>
        rw [hp] at h
        exact ih _ _ h
      | some s =>
        rw [hp] at h
        cases h
        exact ⟨cd, hp⟩
    · cases h

/-- C9 (amended): a returned slot never extends past the recurring window
end of its day's availability row, and never starts before "now" when its
day is today; the probe start has its minutes component rounded up to a
multiple of 30 but keeps the seconds/milliseconds of "now", so it need not
lie on a 30-minute boundary. -/
theorem C9_slot_bounds (db : DB) (serviceId fromDate now daysAhead : Nat)
    (service : Service) (slot : SlotAnswer)
    (hs : db.services.find? (fun s => s.id == serviceId) = some service)
    (hok : getNextAvailableSlot db serviceId fromDate now daysAhead =
      .ok (some slot)) :
    (∃ row, findAvailabilityRow db service.sellerId (dayOfWeek slot.date) = some row ∧
      row.isAvailable = true ∧
      slot.endTime ≤ setHours slot.date (parseHHMM row.endTime).1
        (parseHHMM row.endTime).2) ∧
    (sameDay slot.date now = true → now ≤ slot.startTime) ∧
    (∀ t : Nat, t ≤ roundUpProbeStart t ∧
      getMinutes (roundUpProbeStart t) % 30 = 0 ∧
      roundUpProbeStart t % msPerMinute = t % msPerMinute) := by
  rw [getNextAvailableSlot, hs] at hok
  dsimp only at hok
  rw [Except.ok.injEq] at hok
  obtain ⟨cd', hp⟩ := getNextAvailableSlotGo_some _ _ _ hok
  obtain ⟨hdate, hrow, hnow⟩ := probeDay_some hp
  subst hdate
  exact ⟨hrow, hnow, roundUpProbeStart_spec⟩

set_option maxRecDepth 40000 in
/-- Witness for the amended C9 on the concrete Monday search. -/
theorem C9_slot_bounds_witness :
    (∃ row, findAvailabilityRow dbC4a svcC4.sellerId (dayOfWeek baseMon) = some row ∧
      row.isAvailable = true ∧
      baseMon + 10 * msPerHour ≤ setHours baseMon (parseHHMM row.endTime).1
        (parseHHMM row.endTime).2) ∧
    (sameDay baseMon (baseMon + 8 * msPerHour) = true →
      baseMon + 8 * msPerHour ≤ baseMon + 9 * msPerHour) ∧
    (∀ t : Nat, t ≤ roundUpProbeStart t ∧
      getMinutes (roundUpProbeStart t) % 30 = 0 ∧
      roundUpProbeStart t % msPerMinute = t % msPerMinute) :=
  C9_slot_bounds dbC4a 1 (baseMon + 8 * msPerHour) (baseMon + 8 * msPerHour) 30
    svcC4
    { date := baseMon, startTime := baseMon + 9 * msPerHour,
      endTime := baseMon + 10 * msPerHour }
    (by rfl) (by rfl)

end WrenchEx
